import Mathlib

/-!
Verification of the ToolTrak tool-lifecycle engine.

This file embeds, as executable Lean definitions, the state-changing
operations of the ToolTrak inventory application and proves properties of
them: the tool/assignment data model, assignment creation
(AssignmentForm.handleSubmit), the return workflow (ReturnDialog.handleReturn
in both its administrator and non-administrator branches, approveReturn,
rejectReturn), the Dashboard self-return (handleReturnTool), warehouse
relocation (assignToWarehouse), request fulfilment (updateRequestStatus) and
the usage-percentage analytics (ToolsManager.loadTools).

Rows of the supabase tables `tools`, `tool_assignments`, `tool_event_log`
and `tool_requests` become structures; a database state is lists of rows; a
supabase `update ... eq id` becomes a map over the row list that rewrites
the matching rows; an `insert` appends.  Timestamps are naturals
(milliseconds); uuid values are naturals.  Each awaited supabase call can
fail; the `W`-suffixed variants of the multi-write operations take one
Boolean per write saying whether the persistence layer accepts it, and
return the resulting state together with whether the operation ran to
completion, mirroring the `if (error) throw error` sequencing of the source.
-/

namespace ToolTrak

/-- Tool `status` column: the six statuses of the `tools` table. -/
inductive ToolStatus
  | available
  | in_use
  | maintenance
  | damaged
  | lost
  | retired
  deriving DecidableEq, Repr

/-- Return condition chosen in the return dialog. -/
inductive Condition
  | good
  | maintenance
  | damaged
  | lost
  deriving DecidableEq, Repr

/-- The `return_status` column of `tool_assignments`. -/
inductive ReturnStatus
  | active
  | pending_return
  | returned
  deriving DecidableEq, Repr

/-- The `event_type` column of `tool_event_log`. -/
inductive EventType
  | assigned
  | returned
  | moved
  | status_changed
  | created
  | updated
  deriving DecidableEq, Repr

/-- The `status` column of `tool_requests`. -/
inductive ReqStatus
  | pending
  | approved
  | rejected
  | fulfilled
  deriving DecidableEq, Repr

/-- A row of the `tools` table (the columns the engine operations touch). -/
structure Tool where
  id : Nat
  status : ToolStatus
  location_id : Option Nat
  person_id : Option Nat
  deriving DecidableEq, Repr

/-- A row of the `tool_assignments` table. -/
structure Assignment where
  id : Nat
  tool_id : Nat
  person_id : Option Nat
  location_id : Option Nat
  assigned_to : Option Nat
  assigned_at : Nat
  returned_at : Option Nat
  notes : Option String
  return_condition : Option Condition
  return_notes : Option String
  return_location_id : Option Nat
  return_status : ReturnStatus
  return_requested_at : Option Nat
  return_approved_by : Option Nat
  return_approved_at : Option Nat
  deriving DecidableEq, Repr

/-- A row of the append-only `tool_event_log` table. -/
structure Event where
  tool_id : Nat
  event_type : EventType
  from_location_id : Option Nat
  to_location_id : Option Nat
  from_person_id : Option Nat
  to_person_id : Option Nat
  old_status : Option ToolStatus
  new_status : Option ToolStatus
  notes : String
  user_id : Option Nat
  deriving DecidableEq, Repr

/-- A row of the `tool_requests` table. -/
structure ToolRequest where
  id : Nat
  user_id : Nat
  tool_id : Option Nat
  destination_location_id : Option Nat
  status : ReqStatus
  deriving DecidableEq, Repr

/-- The persisted state the engine operates on. -/
structure DB where
  tools : List Tool
  assignments : List Assignment
  events : List Event
  requests : List ToolRequest
  deriving DecidableEq, Repr

/-- Supabase `update(fields).eq(key, k)`: rewrite every row satisfying `p` with `f`. -/
def updateWhere (p : α → Bool) (f : α → α) (l : List α) : List α :=
  l.map fun x => if p x then f x else x

/-- JavaScript `s || null` on a text field: empty string becomes null. -/
def strOpt (s : String) : Option String :=
  if s = "" then none else some s

/-- The custody target of a new assignment: the three radio buttons of
AssignmentForm (`person`, `location`, `user` with a location). -/
inductive Target
  | person (p : Nat)
  | location (l : Nat)
  | user (u : Nat) (l : Nat)
  deriving DecidableEq, Repr

/-- The `person_id` field of the inserted assignment:
`assignment_type === 'person' ? person_id : null`. -/
def Target.personId : Target → Option Nat
  | .person p => some p
  | _ => none

/-- The `location_id` field of the inserted assignment: the location for the
`location` and `user` radio buttons, null for `person`. -/
def Target.locId : Target → Option Nat
  | .location l => some l
  | .user _ l => some l
  | .person _ => none

/-- The `assigned_to` field: `assignment_type` u means the chosen user, else null. -/
def Target.userId : Target → Option Nat
  | .user u _ => some u
  | _ => none

/-- Status mapping of the return workflow: `let newStatus = 'available';
if maintenance ...; if damaged ...; if lost ...` applied to an optional
`return_condition` (a null or `good` condition yields `available`). -/
def condToStatus : Option Condition → ToolStatus
  | some .maintenance => .maintenance
  | some .damaged => .damaged
  | some .lost => .lost
  | _ => .available

/-- The `assignmentData` record AssignmentForm.handleSubmit inserts. -/
def assignmentData (newId tid : Nat) (tgt : Target) (notes : String)
    (now : Nat) : Assignment :=
  { id := newId, tool_id := tid, person_id := tgt.personId,
    location_id := tgt.locId, assigned_to := tgt.userId,
    assigned_at := now, returned_at := none, notes := strOpt notes,
    return_condition := none, return_notes := none,
    return_location_id := none, return_status := .active,
    return_requested_at := none, return_approved_by := none,
    return_approved_at := none }

/-- The `assigned` event AssignmentForm.handleSubmit inserts, built from the
tool row fetched before the mutation. -/
def assignedEvent (s : DB) (tid : Nat) (tgt : Target) (notes : String)
    (uid : Option Nat) : Event :=
  let tool? := s.tools.find? fun t => t.id == tid
  { tool_id := tid, event_type := .assigned,
    from_location_id := tool?.bind (·.location_id),
    to_location_id := tgt.locId,
    from_person_id := none, to_person_id := tgt.personId,
    old_status := tool?.map (·.status), new_status := some .in_use,
    notes := if notes = "" then "Tool assigned" else notes,
    user_id := uid }

/-- AssignmentForm.handleSubmit with per-write outcomes: reads the tool row,
inserts the assignment (`return_status: 'active'`), sets the tool `status`
to `in_use`, and inserts one `assigned` event whose insertion error is not
checked.  `okA`/`okT`/`okE` say whether the assignment insert, the tool
update and the event insert are accepted; the Boolean result is whether the
call ran to completion (no throw). -/
def createAssignmentW (okA okT okE : Bool) (s : DB) (newId tid : Nat)
    (tgt : Target) (notes : String) (now : Nat) (uid : Option Nat) :
    DB × Bool :=
  if !okA then (s, false) else
  let s1 := { s with assignments :=
    s.assignments ++ [assignmentData newId tid tgt notes now] }
  if !okT then (s1, false) else
  let tls := updateWhere (fun t => t.id == tid)
    (fun t => { t with status := .in_use }) s1.tools
  let s2 := { s1 with tools := tls }
  let s3 := if okE then
    { s2 with events := s2.events ++ [assignedEvent s tid tgt notes uid] }
    else s2
  (s3, true)

/-- AssignmentForm.handleSubmit when every write is accepted. -/
def createAssignment (s : DB) (newId tid : Nat) (tgt : Target)
    (notes : String) (now : Nat) (uid : Option Nat) : DB :=
  (createAssignmentW true true true s newId tid tgt notes now uid).1

/-- Non-administrator branch of ReturnDialog.handleReturn: move the
assignment to `pending_return`, stamping `return_requested_at` and storing
the submitted condition, notes and (lost-normalised) return location; the
tool row is untouched. -/
def requestReturn (s : DB) (a : Assignment) (cond : Condition)
    (returnLoc : Option Nat) (notes : String) (now : Nat) : DB :=
  let asg := updateWhere (fun b => b.id == a.id)
    (fun b => { b with
      return_status := .pending_return,
      return_requested_at := some now,
      return_location_id := if cond = .lost then none else returnLoc,
      return_condition := some cond,
      return_notes := strOpt notes })
    s.assignments
  { s with assignments := asg }

/-- The text of a return condition as interpolated into the event note. -/
def Condition.str : Condition → String
  | .good => "good"
  | .maintenance => "maintenance"
  | .damaged => "damaged"
  | .lost => "lost"

/-- The `returned` event the administrator branch of
ReturnDialog.handleReturn inserts: `to_location_id` is the raw submitted
location (not nulled for a lost tool) and `old_status` the tool status
fetched before the mutation. -/
def returnedEvent (s : DB) (a : Assignment) (cond : Condition)
    (returnLoc : Option Nat) (notes : String) (uid : Nat) : Event :=
  let tool? := s.tools.find? fun t => t.id == a.tool_id
  { tool_id := a.tool_id, event_type := .returned,
    from_location_id := a.location_id, to_location_id := returnLoc,
    from_person_id := none, to_person_id := none,
    old_status := tool?.map (·.status),
    new_status := some (condToStatus (some cond)),
    notes := "Returned with condition: " ++ cond.str ++
      (if notes = "" then "" else ". " ++ notes),
    user_id := some uid }

/-- Administrator branch of ReturnDialog.handleReturn: marks the assignment
returned (stamping approver and timestamps and storing the condition, notes
and lost-normalised return location), maps the tool `status` from the
condition, and inserts one `returned` event.  The tool row keeps its
`location_id` and `person_id`. -/
def adminDirectReturn (s : DB) (a : Assignment) (cond : Condition)
    (returnLoc : Option Nat) (notes : String) (uid now : Nat) : DB :=
  let asg := updateWhere (fun b => b.id == a.id)
    (fun b => { b with
      returned_at := some now,
      return_location_id := if cond = .lost then none else returnLoc,
      return_condition := some cond,
      return_notes := strOpt notes,
      return_status := .returned,
      return_approved_by := some uid,
      return_approved_at := some now })
    s.assignments
  let s1 := { s with assignments := asg }
  let tls := updateWhere (fun t => t.id == a.tool_id)
    (fun t => { t with status := condToStatus (some cond) }) s1.tools
  let s2 := { s1 with tools := tls }
  { s2 with events :=
      s2.events ++ [returnedEvent s a cond returnLoc notes uid] }

/-- AssignmentsManager.approveReturn with per-write outcomes: marks the
assignment returned (stamping approver and timestamps), then maps the tool
`status` from the condition recorded on the passed assignment.  It inserts
no event and does not touch the tool `location_id` or `person_id`. -/
def approveReturnW (okA okT : Bool) (s : DB) (a : Assignment)
    (uid now : Nat) : DB × Bool :=
  if !okA then (s, false) else
  let asg := updateWhere (fun b => b.id == a.id)
    (fun b => { b with
      returned_at := some now,
      return_status := .returned,
      return_approved_by := some uid,
      return_approved_at := some now })
    s.assignments
  let s1 := { s with assignments := asg }
  if !okT then (s1, false) else
  let tls := updateWhere (fun t => t.id == a.tool_id)
    (fun t => { t with status := condToStatus a.return_condition })
    s1.tools
  ({ s1 with tools := tls }, true)

/-- AssignmentsManager.approveReturn when every write is accepted. -/
def approveReturn (s : DB) (a : Assignment) (uid now : Nat) : DB :=
  (approveReturnW true true s a uid now).1

/-- AssignmentsManager.rejectReturn: reset `return_status` to `active` and
clear the four pending-return fields; nothing else changes. -/
def rejectReturn (s : DB) (a : Assignment) : DB :=
  let asg := updateWhere (fun b => b.id == a.id)
    (fun b => { b with
      return_status := .active,
      return_requested_at := none,
      return_location_id := none,
      return_condition := none,
      return_notes := none })
    s.assignments
  { s with assignments := asg }

/-- Dashboard.handleReturnTool: the self-return updates only the tool row,
setting `person_id` to null and `status` to `available`. -/
def handleReturnTool (s : DB) (tid : Nat) : DB :=
  let tls := updateWhere (fun t => t.id == tid)
    (fun t => { t with person_id := none, status := .available })
    s.tools
  { s with tools := tls }

/-- ToolsManager.assignToWarehouse: relocation of a tool, updating only its
`location_id`; no event is inserted. -/
def assignToWarehouse (s : DB) (tid wid : Nat) : DB :=
  let tls := updateWhere (fun t => t.id == tid)
    (fun t => { t with location_id := some wid })
    s.tools
  { s with tools := tls }

/-- ToolRequestsManager.updateRequestStatus: when fulfilling a request that
references an existing tool and a destination, first relocate the tool to
the destination, then set the request status; no event is inserted. -/
def updateRequestStatus (s : DB) (rid : Nat) (st : ReqStatus) : DB :=
  let req? := s.requests.find? fun r => r.id == rid
  let s1 :=
    match st, req? with
    | .fulfilled, some r =>
      match r.tool_id, r.destination_location_id with
      | some tid, some dest =>
        let tls := updateWhere (fun (t : Tool) => t.id == tid)
          (fun t => { t with location_id := some dest }) s.tools
        { s with tools := tls }
      | _, _ => s
    | _, _ => s
  let reqs := updateWhere (fun (r : ToolRequest) => r.id == rid)
    (fun r => { r with status := st }) s1.requests
  { s1 with requests := reqs }

/-! The five operations the status/assignment invariants are stated over:
assignment creation, the two ends of the return workflow, rejection, and
the Dashboard self-return, each taken with every write accepted. -/

/-- One invocation of an engine operation together with its arguments. -/
inductive Op
  | create (newId tid : Nat) (tgt : Target) (notes : String) (now : Nat)
      (uid : Option Nat)
  | request (a : Assignment) (cond : Condition) (returnLoc : Option Nat)
      (notes : String) (now : Nat)
  | approve (a : Assignment) (uid now : Nat)
  | reject (a : Assignment)
  | selfReturn (tid : Nat)
  deriving DecidableEq, Repr

/-- Run one operation on the state. -/
def applyOp : Op → DB → DB
  | .create newId tid tgt notes now uid, s =>
      createAssignment s newId tid tgt notes now uid
  | .request a cond returnLoc notes now, s =>
      requestReturn s a cond returnLoc notes now
  | .approve a uid now, s => approveReturn s a uid now
  | .reject a, s => rejectReturn s a
  | .selfReturn tid, s => handleReturnTool s tid

/-- An assignment that counts as active custody for the status invariant:
not yet returned and with `return_status` `active` or `pending_return`. -/
def openAssign (b : Assignment) : Prop :=
  b.returned_at = none ∧
    (b.return_status = .active ∨ b.return_status = .pending_return)

instance (b : Assignment) : Decidable (openAssign b) := by
  unfold openAssign; infer_instance

/-- Some assignment of tool `tid` is open in the invariant sense. -/
def hasOpenFor (s : DB) (tid : Nat) : Prop :=
  ∃ b ∈ s.assignments, b.tool_id = tid ∧ openAssign b

instance (s : DB) (tid : Nat) : Decidable (hasOpenFor s tid) := by
  unfold hasOpenFor; infer_instance

/-- Some assignment of tool `tid` has `returned_at = null`. -/
def hasOpenRA (s : DB) (tid : Nat) : Prop :=
  ∃ b ∈ s.assignments, b.tool_id = tid ∧ b.returned_at = none

instance (s : DB) (tid : Nat) : Decidable (hasOpenRA s tid) := by
  unfold hasOpenRA; infer_instance

/-- The status consistency invariant: a tool is `in_use` exactly when an
assignment with `returned_at = null` and `return_status` in
`(active, pending_return)` exists for it. -/
def statusOpenIff (s : DB) : Prop :=
  ∀ t ∈ s.tools, t.status = ToolStatus.in_use ↔ hasOpenFor s t.id

instance (s : DB) : Decidable (statusOpenIff s) := by
  unfold statusOpenIff; infer_instance

/-- At most one assignment per tool has `returned_at = null`. -/
def atMostOneOpen (s : DB) : Prop :=
  ∀ b ∈ s.assignments, ∀ c ∈ s.assignments,
    b.tool_id = c.tool_id → b.returned_at = none → c.returned_at = none →
      b = c

instance (s : DB) : Decidable (atMostOneOpen s) := by
  unfold atMostOneOpen; infer_instance

/-- A returned assignment carries its return timestamp. -/
def stampedReturns (s : DB) : Prop :=
  ∀ b ∈ s.assignments, b.return_status = ReturnStatus.returned →
    b.returned_at ≠ none

instance (s : DB) : Decidable (stampedReturns s) := by
  unfold stampedReturns; infer_instance

/-- Assignment primary keys identify rows. -/
def uniqAssignIds (s : DB) : Prop :=
  ∀ b ∈ s.assignments, ∀ c ∈ s.assignments, b.id = c.id → b = c

instance (s : DB) : Decidable (uniqAssignIds s) := by
  unfold uniqAssignIds; infer_instance

/-- Tool primary keys identify rows. -/
def uniqToolIds (s : DB) : Prop :=
  ∀ t ∈ s.tools, ∀ u ∈ s.tools, t.id = u.id → t = u

instance (s : DB) : Decidable (uniqToolIds s) := by
  unfold uniqToolIds; infer_instance

/-- The well-formedness the persistence layer guarantees (unique primary
keys) together with the engine invariants. -/
def WF (s : DB) : Prop :=
  uniqAssignIds s ∧ uniqToolIds s ∧ stampedReturns s ∧ atMostOneOpen s ∧
    statusOpenIff s

instance (s : DB) : Decidable (WF s) := by
  unfold WF; infer_instance

/-- The operational precondition of each operation: fresh primary key and a
not-currently-assigned tool for creation, a stored not-yet-returned
assignment for approval, a tool with no open assignment for the Dashboard
self-return; requesting and rejecting a return need nothing. -/
def okOp (s : DB) : Op → Prop
  | .create newId tid _ _ _ _ =>
      (∀ b ∈ s.assignments, b.id ≠ newId) ∧ ¬ hasOpenRA s tid
  | .request _ _ _ _ _ => True
  | .approve a _ _ => a ∈ s.assignments ∧ a.returned_at = none
  | .reject _ => True
  | .selfReturn tid => ¬ hasOpenRA s tid

instance (s : DB) (op : Op) : Decidable (okOp s op) := by
  unfold okOp; cases op <;> infer_instance

/-! Usage analytics (ToolsManager.loadTools).  Timestamps are integer
milliseconds; durations become rationals through the division by
`1000 * 60 * 60 * 24`. -/

/-- The divisor `1000 * 60 * 60 * 24` turning milliseconds into days. -/
def msPerDay : ℚ := 86400000

/-- The two columns the usage aggregation selects per assignment. -/
structure UsageRow where
  assigned_at : ℤ
  returned_at : Option ℤ
  deriving DecidableEq, Repr

/-- Days a single assignment was out,
`(endDate - startDate) / (1000*60*60*24)`, the current time standing in
for a missing `returned_at`. -/
def daysInUse (now : ℤ) (a : UsageRow) : ℚ :=
  ((a.returned_at.getD now - a.assigned_at : ℤ) : ℚ) / msPerDay

/-- The `reduce` accumulating `total_usage_days`. -/
def totalUsageDays (now : ℤ) (l : List UsageRow) : ℚ :=
  (l.map (daysInUse now)).sum

/-- JavaScript `Math.round`: round half toward positive infinity. -/
def jsRound (x : ℚ) : ℤ := Int.floor (x + 1 / 2)

/-- The `usage_percentage` as ToolsManager.loadTools computes it: zero when the
tool has no assignments, otherwise total usage days over days since the
purchase date (or the creation date when there is none), times 100 when
that denominator is positive, finally `Math.round`ed. -/
def usagePercentage (l : List UsageRow) (purchase : Option ℤ)
    (created now : ℤ) : ℤ :=
  if l.isEmpty then 0 else
  let total := totalUsageDays now l
  let inventoryStart := purchase.getD created
  let totalDaysInInventory : ℚ := ((now - inventoryStart : ℤ) : ℚ) / msPerDay
  let pct := if 0 < totalDaysInInventory then total / totalDaysInInventory * 100
    else 0
  jsRound pct

/-- The specification formula for the usage percentage: the summed raw
assignment durations divided by the elapsed time since purchase (or
creation), expressed as a percentage and rounded — stated directly on
millisecond quantities, with no intermediate per-day division. -/
def specUsagePercentage (l : List UsageRow) (purchase : Option ℤ)
    (created now : ℤ) : ℤ :=
  jsRound (100 *
    ((l.map fun a => ((a.returned_at.getD now - a.assigned_at : ℤ) : ℚ)).sum) /
    ((now - purchase.getD created : ℤ) : ℚ))

/-- The width of the usage bar, `Math.min(usage_percentage || 0, 100)`. -/
def displayUsageWidth (pct : ℤ) : ℤ := min pct 100

/-! ### Concrete states used in the closed runs below -/

/-- Fallback row for list lookups on concrete states. -/
def toolFallback : Tool :=
  { id := 0, status := .available, location_id := none, person_id := none }

/-- Tool 1, available at location 5 and, through the tool-row fallback
custody fields, held by person 2. -/
def tool1Avail : Tool :=
  { id := 1, status := .available, location_id := some 5, person_id := some 2 }

/-- A one-tool state holding just `tool1Avail`. -/
def db0 : DB :=
  { tools := [tool1Avail], assignments := [], events := [], requests := [] }

/-- State `db0` after creating assignment 10 of tool 1 to person 2. -/
def db1 : DB := applyOp (.create 10 1 (.person 2) "" 100 none) db0

/-- State `db1` after the Dashboard self-return of tool 1. -/
def db2 : DB := applyOp (.selfReturn 1) db1

/-- The open assignment of tool 1 awaiting return approval: condition good,
requested return to location 9. -/
def aPending : Assignment :=
  { id := 4, tool_id := 1, person_id := none, location_id := some 5,
    assigned_to := some 8, assigned_at := 10, returned_at := none,
    notes := none, return_condition := some .good,
    return_notes := some "ok", return_location_id := some 9,
    return_status := .pending_return, return_requested_at := some 20,
    return_approved_by := none, return_approved_at := none }

/-- Tool 1 while out: `in_use`, resting location 7. -/
def tool1InUse : Tool :=
  { id := 1, status := .in_use, location_id := some 7, person_id := none }

/-- A state with `tool1InUse` and `aPending` awaiting approval. -/
def dbPending : DB :=
  { tools := [tool1InUse], assignments := [aPending], events := [],
    requests := [] }

/-- Tool 1 under maintenance at location 5. -/
def tool1Maint : Tool :=
  { id := 1, status := .maintenance, location_id := some 5, person_id := none }

/-- A state whose only tool is under maintenance. -/
def dbMaint : DB :=
  { tools := [tool1Maint], assignments := [], events := [], requests := [] }

/-- An approved request to move tool 1 to location 9. -/
def reqApproved : ToolRequest :=
  { id := 3, user_id := 8, tool_id := some 1,
    destination_location_id := some 9, status := .approved }

/-- Tool 1 available at location 7, awaiting the requested move. -/
def tool1AtSeven : Tool :=
  { id := 1, status := .available, location_id := some 7, person_id := none }

/-- A state with `tool1AtSeven` and `reqApproved` ready to fulfil. -/
def dbReq : DB :=
  { tools := [tool1AtSeven], assignments := [], events := [],
    requests := [reqApproved] }

/-! ### Basic properties of the row-update combinator -/

theorem mem_updateWhere {α} {p : α → Bool} {f : α → α} {l : List α} {y : α} :
    y ∈ updateWhere p f l ↔ ∃ x ∈ l, y = if p x then f x else x := by
  simp only [updateWhere, List.mem_map]
  constructor
  · rintro ⟨x, hx, rfl⟩; exact ⟨x, hx, rfl⟩
  · rintro ⟨x, hx, rfl⟩; exact ⟨x, hx, rfl⟩

theorem mem_updateWhere_of_mem {α} {p : α → Bool} {f : α → α} {l : List α}
    {x : α} (hx : x ∈ l) : (if p x then f x else x) ∈ updateWhere p f l :=
  mem_updateWhere.2 ⟨x, hx, rfl⟩

theorem length_updateWhere {α} (p : α → Bool) (f : α → α) (l : List α) :
    (updateWhere p f l).length = l.length :=
  List.length_map l _

/-! ### Component equations of the operations -/

theorem createAssignment_assignments (s : DB) (newId tid : Nat)
    (tgt : Target) (notes : String) (now : Nat) (uid : Option Nat) :
    (createAssignment s newId tid tgt notes now uid).assignments
      = s.assignments ++ [assignmentData newId tid tgt notes now] := rfl

theorem createAssignment_tools (s : DB) (newId tid : Nat) (tgt : Target)
    (notes : String) (now : Nat) (uid : Option Nat) :
    (createAssignment s newId tid tgt notes now uid).tools
      = updateWhere (fun t => t.id == tid)
          (fun t => { t with status := ToolStatus.in_use }) s.tools := rfl

theorem createAssignment_events (s : DB) (newId tid : Nat) (tgt : Target)
    (notes : String) (now : Nat) (uid : Option Nat) :
    (createAssignment s newId tid tgt notes now uid).events
      = s.events ++ [assignedEvent s tid tgt notes uid] := rfl

theorem requestReturn_assignments (s : DB) (a : Assignment)
    (cond : Condition) (returnLoc : Option Nat) (notes : String) (now : Nat) :
    (requestReturn s a cond returnLoc notes now).assignments
      = updateWhere (fun b => b.id == a.id)
          (fun b => { b with
            return_status := .pending_return,
            return_requested_at := some now,
            return_location_id := if cond = .lost then none else returnLoc,
            return_condition := some cond,
            return_notes := strOpt notes })
          s.assignments := rfl

theorem requestReturn_tools (s : DB) (a : Assignment) (cond : Condition)
    (returnLoc : Option Nat) (notes : String) (now : Nat) :
    (requestReturn s a cond returnLoc notes now).tools = s.tools := rfl

theorem requestReturn_events (s : DB) (a : Assignment) (cond : Condition)
    (returnLoc : Option Nat) (notes : String) (now : Nat) :
    (requestReturn s a cond returnLoc notes now).events = s.events := rfl

theorem approveReturn_assignments (s : DB) (a : Assignment) (uid now : Nat) :
    (approveReturn s a uid now).assignments
      = updateWhere (fun b => b.id == a.id)
          (fun b => { b with
            returned_at := some now,
            return_status := .returned,
            return_approved_by := some uid,
            return_approved_at := some now })
          s.assignments := rfl

theorem approveReturn_tools (s : DB) (a : Assignment) (uid now : Nat) :
    (approveReturn s a uid now).tools
      = updateWhere (fun t => t.id == a.tool_id)
          (fun t => { t with status := condToStatus a.return_condition })
          s.tools := rfl

theorem approveReturn_events (s : DB) (a : Assignment) (uid now : Nat) :
    (approveReturn s a uid now).events = s.events := rfl

theorem rejectReturn_assignments (s : DB) (a : Assignment) :
    (rejectReturn s a).assignments
      = updateWhere (fun b => b.id == a.id)
          (fun b => { b with
            return_status := .active,
            return_requested_at := none,
            return_location_id := none,
            return_condition := none,
            return_notes := none })
          s.assignments := rfl

theorem rejectReturn_tools (s : DB) (a : Assignment) :
    (rejectReturn s a).tools = s.tools := rfl

theorem rejectReturn_events (s : DB) (a : Assignment) :
    (rejectReturn s a).events = s.events := rfl

theorem handleReturnTool_tools (s : DB) (tid : Nat) :
    (handleReturnTool s tid).tools
      = updateWhere (fun t => t.id == tid)
          (fun t => { t with person_id := none, status := .available })
          s.tools := rfl

theorem handleReturnTool_assignments (s : DB) (tid : Nat) :
    (handleReturnTool s tid).assignments = s.assignments := rfl

theorem handleReturnTool_events (s : DB) (tid : Nat) :
    (handleReturnTool s tid).events = s.events := rfl

theorem adminDirectReturn_events (s : DB) (a : Assignment) (cond : Condition)
    (returnLoc : Option Nat) (notes : String) (uid now : Nat) :
    (adminDirectReturn s a cond returnLoc notes uid now).events
      = s.events ++ [returnedEvent s a cond returnLoc notes uid] := rfl

theorem adminDirectReturn_tools (s : DB) (a : Assignment) (cond : Condition)
    (returnLoc : Option Nat) (notes : String) (uid now : Nat) :
    (adminDirectReturn s a cond returnLoc notes uid now).tools
      = updateWhere (fun t => t.id == a.tool_id)
          (fun t => { t with status := condToStatus (some cond) })
          s.tools := rfl

theorem adminDirectReturn_assignments (s : DB) (a : Assignment)
    (cond : Condition) (returnLoc : Option Nat) (notes : String)
    (uid now : Nat) :
    (adminDirectReturn s a cond returnLoc notes uid now).assignments
      = updateWhere (fun b => b.id == a.id)
          (fun b => { b with
            returned_at := some now,
            return_location_id := if cond = .lost then none else returnLoc,
            return_condition := some cond,
            return_notes := strOpt notes,
            return_status := .returned,
            return_approved_by := some uid,
            return_approved_at := some now })
          s.assignments := rfl

theorem assignToWarehouse_events (s : DB) (tid wid : Nat) :
    (assignToWarehouse s tid wid).events = s.events := rfl

theorem updateRequestStatus_events (s : DB) (rid : Nat) (st : ReqStatus) :
    (updateRequestStatus s rid st).events = s.events := by
  unfold updateRequestStatus
  cases h : s.requests.find? fun r => r.id == rid <;> cases st <;> simp
  case some.fulfilled =>
    rename_i r
    cases r.tool_id <;> cases r.destination_location_id <;> simp

/-- The return-workflow status mapping never yields `in_use`. -/
theorem condToStatus_ne_in_use (c : Option Condition) :
    condToStatus c ≠ ToolStatus.in_use := by
  match c with
  | none => simp [condToStatus]
  | some .good => simp [condToStatus]
  | some .maintenance => simp [condToStatus]
  | some .damaged => simp [condToStatus]
  | some .lost => simp [condToStatus]

/-! ### Preservation of the well-formedness invariants -/

theorem WF_create (s : DB) (newId tid : Nat) (tgt : Target) (notes : String)
    (now : Nat) (uid : Option Nat) (h : WF s)
    (hfresh : ∀ b ∈ s.assignments, b.id ≠ newId)
    (hno : ¬ hasOpenRA s tid) :
    WF (createAssignment s newId tid tgt notes now uid) := by
  obtain ⟨hA, hT, hS, hM, hI⟩ := h
  have hrow_id : (assignmentData newId tid tgt notes now).id = newId := rfl
  have hrow_tool : (assignmentData newId tid tgt notes now).tool_id = tid := rfl
  have hrow_open : openAssign (assignmentData newId tid tgt notes now) :=
    ⟨rfl, Or.inl rfl⟩
  have hidpres : ∀ x : Tool,
      ((if (x.id == tid) then { x with status := ToolStatus.in_use }
        else x) : Tool).id = x.id := by
    intro x; split <;> rfl
  refine ⟨?_, ?_, ?_, ?_, ?_⟩
  · -- unique assignment ids
    intro b hb c hc hbc
    rw [createAssignment_assignments, List.mem_append] at hb hc
    rcases hb with hb | hb <;> rcases hc with hc | hc
    · exact hA b hb c hc hbc
    · simp only [List.mem_singleton] at hc
      subst hc; rw [hrow_id] at hbc; exact absurd hbc (hfresh b hb)
    · simp only [List.mem_singleton] at hb
      subst hb; rw [hrow_id] at hbc
      exact absurd hbc.symm (hfresh c hc)
    · simp only [List.mem_singleton] at hb hc; rw [hb, hc]
  · -- unique tool ids
    intro t ht u hu htu
    rw [createAssignment_tools] at ht hu
    obtain ⟨t0, ht0, rfl⟩ := mem_updateWhere.1 ht
    obtain ⟨u0, hu0, rfl⟩ := mem_updateWhere.1 hu
    rw [hidpres, hidpres] at htu
    rw [hT t0 ht0 u0 hu0 htu]
  · -- stamped returns
    intro b hb hret
    rw [createAssignment_assignments, List.mem_append] at hb
    rcases hb with hb | hb
    · exact hS b hb hret
    · simp only [List.mem_singleton] at hb; subst hb
      exact absurd hret (by simp [assignmentData])
  · -- at most one open assignment per tool
    intro b hb c hc htool hbn hcn
    rw [createAssignment_assignments, List.mem_append] at hb hc
    rcases hb with hb | hb <;> rcases hc with hc | hc
    · exact hM b hb c hc htool hbn hcn
    · simp only [List.mem_singleton] at hc
      subst hc; rw [hrow_tool] at htool
      exact absurd ⟨b, hb, htool, hbn⟩ hno
    · simp only [List.mem_singleton] at hb
      subst hb; rw [hrow_tool] at htool
      exact absurd ⟨c, hc, htool.symm, hcn⟩ hno
    · simp only [List.mem_singleton] at hb hc; rw [hb, hc]
  · -- status consistency
    have hopen' : ∀ x,
        hasOpenFor (createAssignment s newId tid tgt notes now uid) x ↔
          (hasOpenFor s x ∨ x = tid) := by
      intro x
      constructor
      · rintro ⟨b, hb, hbt, hbo⟩
        rw [createAssignment_assignments, List.mem_append] at hb
        rcases hb with hb | hb
        · exact Or.inl ⟨b, hb, hbt, hbo⟩
        · simp only [List.mem_singleton] at hb; subst hb
          refine Or.inr ?_
          rw [← hbt]; exact hrow_tool
      · rintro (⟨b, hb, hbt, hbo⟩ | hx)
        · refine ⟨b, ?_, hbt, hbo⟩
          rw [createAssignment_assignments, List.mem_append]
          exact Or.inl hb
        · rw [hx]
          refine ⟨assignmentData newId tid tgt notes now, ?_, hrow_tool,
            hrow_open⟩
          rw [createAssignment_assignments, List.mem_append]
          exact Or.inr (List.mem_singleton.2 rfl)
    intro t ht
    rw [createAssignment_tools] at ht
    obtain ⟨t0, ht0, rfl⟩ := mem_updateWhere.1 ht
    rw [hopen']
    by_cases h0 : t0.id = tid
    · simp [h0]
    · have hne : (t0.id == tid) = false := by
        rw [beq_eq_false_iff_ne]; exact h0
      simp only [hne, Bool.false_eq_true, if_false]
      rw [hI t0 ht0]
      constructor
      · exact fun hx => Or.inl hx
      · exact fun hx => hx.resolve_right h0

/-- Under `stampedReturns`, a stored assignment is open exactly when its
`returned_at` is null. -/
theorem openAssign_iff_returned_at {s : DB} (hS : stampedReturns s)
    {b : Assignment} (hb : b ∈ s.assignments) :
    openAssign b ↔ b.returned_at = none := by
  constructor
  · exact fun h => h.1
  · intro h
    refine ⟨h, ?_⟩
    rcases h3 : b.return_status with _ | _ | _
    · exact Or.inl rfl
    · exact Or.inr rfl
    · exact absurd h (hS b hb h3)

/-- A row update that keeps `returned_at` and `tool_id` and never writes
`returned` as the new `return_status` does not change which tools have an
open assignment. -/
theorem hasOpenFor_updateWhere {s : DB} (hS : stampedReturns s)
    (p : Assignment → Bool) (g : Assignment → Assignment)
    (hgRA : ∀ b, (g b).returned_at = b.returned_at)
    (hgTool : ∀ b, (g b).tool_id = b.tool_id)
    (hgNotRet : ∀ b, (g b).return_status ≠ ReturnStatus.returned) (x : Nat) :
    (∃ y ∈ updateWhere p g s.assignments, y.tool_id = x ∧ openAssign y) ↔
      hasOpenFor s x := by
  constructor
  · rintro ⟨y, hy, hyt, hyo⟩
    obtain ⟨b, hb, rfl⟩ := mem_updateWhere.1 hy
    by_cases hp : p b
    · simp only [hp, if_true] at hyt hyo
      have hra : b.returned_at = none := (hgRA b) ▸ hyo.1
      exact ⟨b, hb, (hgTool b) ▸ hyt,
        (openAssign_iff_returned_at hS hb).2 hra⟩
    · simp only [hp, if_false] at hyt hyo
      exact ⟨b, hb, hyt, hyo⟩
  · rintro ⟨b, hb, hbt, hbo⟩
    refine ⟨if p b then g b else b, mem_updateWhere_of_mem hb, ?_, ?_⟩
    · by_cases hp : p b <;> simp only [hp, if_true, if_false]
      · exact (hgTool b) ▸ hbt
      · exact hbt
    · by_cases hp : p b <;> simp only [hp, if_true, if_false]
      · refine ⟨(hgRA b) ▸ hbo.1, ?_⟩
        rcases h3 : (g b).return_status with _ | _ | _
        · exact Or.inl rfl
        · exact Or.inr rfl
        · exact absurd h3 (hgNotRet b)
      · exact hbo

/-- A row update whose function keeps primary keys keeps them unique. -/
theorem uniq_updateWhere {α} (key : α → Nat) (p : α → Bool) (f : α → α)
    (hf : ∀ x, key (f x) = key x) (l : List α)
    (h : ∀ x ∈ l, ∀ y ∈ l, key x = key y → x = y) :
    ∀ x ∈ updateWhere p f l, ∀ y ∈ updateWhere p f l,
      key x = key y → x = y := by
  intro x hx y hy hxy
  obtain ⟨x0, hx0, rfl⟩ := mem_updateWhere.1 hx
  obtain ⟨y0, hy0, rfl⟩ := mem_updateWhere.1 hy
  have hkx : key (if p x0 then f x0 else x0) = key x0 := by
    split <;> simp [hf]
  have hky : key (if p y0 then f y0 else y0) = key y0 := by
    split <;> simp [hf]
  rw [hkx, hky] at hxy
  rw [h x0 hx0 y0 hy0 hxy]

/-- A row update that keeps `returned_at` and `tool_id` keeps the
one-open-assignment-per-tool property. -/
theorem atMostOneOpen_updateWhere {s : DB} (hM : atMostOneOpen s)
    (p : Assignment → Bool) (g : Assignment → Assignment)
    (hgRA : ∀ b, (g b).returned_at = b.returned_at)
    (hgTool : ∀ b, (g b).tool_id = b.tool_id) :
    ∀ b ∈ updateWhere p g s.assignments,
      ∀ c ∈ updateWhere p g s.assignments,
        b.tool_id = c.tool_id → b.returned_at = none →
          c.returned_at = none → b = c := by
  intro b hb c hc htool hbn hcn
  obtain ⟨b0, hb0, rfl⟩ := mem_updateWhere.1 hb
  obtain ⟨c0, hc0, rfl⟩ := mem_updateWhere.1 hc
  have h1 : (if p b0 then g b0 else b0).tool_id = b0.tool_id := by
    split
    · exact hgTool b0
    · rfl
  have h2 : (if p c0 then g c0 else c0).tool_id = c0.tool_id := by
    split
    · exact hgTool c0
    · rfl
  have h3 : (if p b0 then g b0 else b0).returned_at = b0.returned_at := by
    split
    · exact hgRA b0
    · rfl
  have h4 : (if p c0 then g c0 else c0).returned_at = c0.returned_at := by
    split
    · exact hgRA c0
    · rfl
  rw [h1, h2] at htool
  rw [h3] at hbn
  rw [h4] at hcn
  rw [hM b0 hb0 c0 hc0 htool hbn hcn]

/-- A row update that never writes `returned` keeps returned rows
stamped. -/
theorem stamped_updateWhere {s : DB} (hS : stampedReturns s)
    (p : Assignment → Bool) (g : Assignment → Assignment)
    (hgNotRet : ∀ b, (g b).return_status ≠ ReturnStatus.returned) :
    ∀ b ∈ updateWhere p g s.assignments,
      b.return_status = ReturnStatus.returned → b.returned_at ≠ none := by
  intro b hb hret
  obtain ⟨b0, hb0, rfl⟩ := mem_updateWhere.1 hb
  by_cases hp : p b0
  · rw [if_pos hp] at hret
    exact absurd hret (hgNotRet b0)
  · rw [if_neg hp] at hret ⊢
    exact hS b0 hb0 hret

theorem WF_request (s : DB) (a : Assignment) (cond : Condition)
    (returnLoc : Option Nat) (notes : String) (now : Nat) (h : WF s) :
    WF (requestReturn s a cond returnLoc notes now) := by
  obtain ⟨hA, hT, hS, hM, hI⟩ := h
  refine ⟨?_, ?_, ?_, ?_, ?_⟩
  · intro b hb c hc
    rw [requestReturn_assignments] at hb hc
    refine uniq_updateWhere Assignment.id _ _ ?_ _ hA b hb c hc
    intro x; rfl
  · intro t ht u hu
    rw [requestReturn_tools] at ht hu
    exact hT t ht u hu
  · intro b hb
    rw [requestReturn_assignments] at hb
    refine stamped_updateWhere hS _ _ ?_ b hb
    intro x; simp
  · intro b hb c hc
    rw [requestReturn_assignments] at hb hc
    refine atMostOneOpen_updateWhere hM _ _ ?_ ?_ b hb c hc
    · intro x; rfl
    · intro x; rfl
  · intro t ht
    rw [requestReturn_tools] at ht
    have hx := hasOpenFor_updateWhere hS (fun b => b.id == a.id)
      (fun b => { b with
        return_status := .pending_return,
        return_requested_at := some now,
        return_location_id := if cond = .lost then none else returnLoc,
        return_condition := some cond,
        return_notes := strOpt notes })
      (fun _ => rfl) (fun _ => rfl) (fun _ => by simp) t.id
    have hx' : hasOpenFor (requestReturn s a cond returnLoc notes now) t.id ↔
        hasOpenFor s t.id := by
      unfold hasOpenFor
      rw [requestReturn_assignments]
      exact hx
    rw [hx']
    exact hI t ht

theorem WF_reject (s : DB) (a : Assignment) (h : WF s) :
    WF (rejectReturn s a) := by
  obtain ⟨hA, hT, hS, hM, hI⟩ := h
  refine ⟨?_, ?_, ?_, ?_, ?_⟩
  · intro b hb c hc
    rw [rejectReturn_assignments] at hb hc
    refine uniq_updateWhere Assignment.id _ _ ?_ _ hA b hb c hc
    intro x; rfl
  · intro t ht u hu
    rw [rejectReturn_tools] at ht hu
    exact hT t ht u hu
  · intro b hb
    rw [rejectReturn_assignments] at hb
    refine stamped_updateWhere hS _ _ ?_ b hb
    intro x; simp
  · intro b hb c hc
    rw [rejectReturn_assignments] at hb hc
    refine atMostOneOpen_updateWhere hM _ _ ?_ ?_ b hb c hc
    · intro x; rfl
    · intro x; rfl
  · intro t ht
    rw [rejectReturn_tools] at ht
    have hx := hasOpenFor_updateWhere hS (fun b => b.id == a.id)
      (fun b => { b with
        return_status := .active,
        return_requested_at := none,
        return_location_id := none,
        return_condition := none,
        return_notes := none })
      (fun _ => rfl) (fun _ => rfl) (fun _ => by simp) t.id
    have hx' : hasOpenFor (rejectReturn s a) t.id ↔ hasOpenFor s t.id := by
      unfold hasOpenFor
      rw [rejectReturn_assignments]
      exact hx
    rw [hx']
    exact hI t ht

theorem WF_approve (s : DB) (a : Assignment) (uid now : Nat) (h : WF s)
    (ha : a ∈ s.assignments) (hra : a.returned_at = none) :
    WF (approveReturn s a uid now) := by
  obtain ⟨hA, hT, hS, hM, hI⟩ := h
  have hopen' : ∀ x, hasOpenFor (approveReturn s a uid now) x ↔
      ∃ b ∈ s.assignments, b.id ≠ a.id ∧ b.tool_id = x ∧ openAssign b := by
    intro x
    unfold hasOpenFor
    rw [approveReturn_assignments]
    constructor
    · rintro ⟨y, hy, hyt, hyo⟩
      obtain ⟨b0, hb0, rfl⟩ := mem_updateWhere.1 hy
      by_cases hp : (b0.id == a.id) = true
      · rw [if_pos hp] at hyo
        exact absurd hyo.1 (by simp)
      · rw [if_neg hp] at hyt hyo
        exact ⟨b0, hb0, by simpa using hp, hyt, hyo⟩
    · rintro ⟨b, hb, hbne, hbt, hbo⟩
      have hp : (b.id == a.id) = false := by
        rw [beq_eq_false_iff_ne]; exact hbne
      refine ⟨b, ?_, hbt, hbo⟩
      have := mem_updateWhere_of_mem (p := fun b => b.id == a.id)
        (f := fun b => { b with
          returned_at := some now,
          return_status := .returned,
          return_approved_by := some uid,
          return_approved_at := some now }) hb
      simpa [hp] using this
  refine ⟨?_, ?_, ?_, ?_, ?_⟩
  · intro b hb c hc
    rw [approveReturn_assignments] at hb hc
    refine uniq_updateWhere Assignment.id _ _ ?_ _ hA b hb c hc
    intro x; rfl
  · intro t ht u hu
    rw [approveReturn_tools] at ht hu
    refine uniq_updateWhere Tool.id _ _ ?_ _ hT t ht u hu
    intro x; rfl
  · intro b hb hret
    rw [approveReturn_assignments] at hb
    obtain ⟨b0, hb0, rfl⟩ := mem_updateWhere.1 hb
    by_cases hp : (b0.id == a.id) = true
    · rw [if_pos hp]
      simp
    · rw [if_neg hp] at hret ⊢
      exact hS b0 hb0 hret
  · intro b hb c hc htool hbn hcn
    rw [approveReturn_assignments] at hb hc
    obtain ⟨b0, hb0, rfl⟩ := mem_updateWhere.1 hb
    obtain ⟨c0, hc0, rfl⟩ := mem_updateWhere.1 hc
    by_cases hpb : (b0.id == a.id) = true
    · rw [if_pos hpb] at hbn
      exact absurd hbn (by simp)
    · by_cases hpc : (c0.id == a.id) = true
      · rw [if_pos hpc] at hcn
        exact absurd hcn (by simp)
      · rw [if_neg hpb] at htool hbn ⊢
        rw [if_neg hpc] at htool hcn ⊢
        rw [hM b0 hb0 c0 hc0 htool hbn hcn]
  · intro t ht
    rw [approveReturn_tools] at ht
    obtain ⟨t0, ht0, rfl⟩ := mem_updateWhere.1 ht
    by_cases h0 : t0.id = a.tool_id
    · have hp : (t0.id == a.tool_id) = true := by simpa using h0
      rw [if_pos hp]
      constructor
      · intro hst
        exact absurd hst (condToStatus_ne_in_use a.return_condition)
      · intro hop
        rw [hopen'] at hop
        obtain ⟨b, hb, hbne, hbt, hbo⟩ := hop
        have : b = a := hM b hb a ha (by rw [hbt, h0]) hbo.1 hra
        exact absurd (congrArg Assignment.id this) hbne
    · have hp : (t0.id == a.tool_id) = false := by
        rw [beq_eq_false_iff_ne]; exact h0
      rw [if_neg (by simp [hp])]
      rw [hopen']
      rw [hI t0 ht0]
      constructor
      · rintro ⟨b, hb, hbt, hbo⟩
        refine ⟨b, hb, ?_, hbt, hbo⟩
        intro hbid
        have : b = a := hA b hb a ha hbid
        rw [this] at hbt
        exact h0 hbt.symm
      · rintro ⟨b, hb, _, hbt, hbo⟩
        exact ⟨b, hb, hbt, hbo⟩

theorem WF_selfReturn (s : DB) (tid : Nat) (h : WF s)
    (hno : ¬ hasOpenRA s tid) : WF (handleReturnTool s tid) := by
  obtain ⟨hA, hT, hS, hM, hI⟩ := h
  have hasg : (handleReturnTool s tid).assignments = s.assignments := rfl
  refine ⟨?_, ?_, ?_, ?_, ?_⟩
  · intro b hb c hc
    rw [hasg] at hb hc
    exact hA b hb c hc
  · intro t ht u hu
    rw [handleReturnTool_tools] at ht hu
    refine uniq_updateWhere Tool.id _ _ ?_ _ hT t ht u hu
    intro x; rfl
  · intro b hb
    rw [hasg] at hb
    exact hS b hb
  · intro b hb c hc
    rw [hasg] at hb hc
    exact hM b hb c hc
  · have hsame : ∀ x, hasOpenFor (handleReturnTool s tid) x ↔
        hasOpenFor s x := by
      intro x
      unfold hasOpenFor
      rw [hasg]
    intro t ht
    rw [handleReturnTool_tools] at ht
    obtain ⟨t0, ht0, rfl⟩ := mem_updateWhere.1 ht
    by_cases h0 : t0.id = tid
    · have hp : (t0.id == tid) = true := by simpa using h0
      rw [if_pos hp]
      constructor
      · intro hst
        exact absurd hst (by simp)
      · intro hop
        rw [hsame] at hop
        obtain ⟨b, hb, hbt, hbo⟩ := hop
        exact absurd ⟨b, hb, by rw [hbt, h0], hbo.1⟩ hno
    · have hp : (t0.id == tid) = false := by
        rw [beq_eq_false_iff_ne]; exact h0
      rw [if_neg (by simp [hp])]
      rw [hsame]
      exact hI t0 ht0

/-- Every operation, run under its operational precondition from a
well-formed state, yields a well-formed state. -/
theorem WF_applyOp (s : DB) (op : Op) (h : WF s) (hok : okOp s op) :
    WF (applyOp op s) := by
  cases op with
  | create newId tid tgt notes now uid =>
      exact WF_create s newId tid tgt notes now uid h hok.1 hok.2
  | request a cond returnLoc notes now =>
      exact WF_request s a cond returnLoc notes now h
  | approve a uid now => exact WF_approve s a uid now h hok.1 hok.2
  | reject a => exact WF_reject s a h
  | selfReturn tid => exact WF_selfReturn s tid h hok

/-! ### The claims -/

/-- C10: the Dashboard self-return mutates only the tool row — it sets the
tool status to `available` and clears the person reference, keeping every
other tool field — while the assignment list (hence every open assignment's
`returned_at` and `return_status`), the event log and the request queue are
untouched. -/
theorem C10_self_return_frame (s : DB) (tid : Nat) :
    (handleReturnTool s tid).assignments = s.assignments ∧
    (handleReturnTool s tid).events = s.events ∧
    (handleReturnTool s tid).requests = s.requests ∧
    (handleReturnTool s tid).tools
      = s.tools.map fun t =>
          if t.id = tid then
            { t with status := .available, person_id := none }
          else t := by
  refine ⟨rfl, rfl, rfl, ?_⟩
  rw [handleReturnTool_tools]
  unfold updateWhere
  simp only [beq_iff_eq]

/-- C8: with condition `lost`, both return paths — the administrator-direct
return and the non-administrator pending-return request — store a null
return location on the assignment, whatever location was submitted. -/
theorem C8_lost_null_location (s : DB) (a : Assignment) (loc : Option Nat)
    (notes : String) (uid now : Nat) :
    (∀ b ∈ (adminDirectReturn s a .lost loc notes uid now).assignments,
        b.id = a.id → b.return_location_id = none) ∧
    (∀ b ∈ (requestReturn s a .lost loc notes now).assignments,
        b.id = a.id → b.return_location_id = none) := by
  constructor
  · intro b hb hid
    rw [adminDirectReturn_assignments] at hb
    obtain ⟨b0, hb0, rfl⟩ := mem_updateWhere.1 hb
    by_cases hp : (b0.id == a.id) = true
    · rw [if_pos hp]
      simp
    · rw [if_neg hp] at hid
      simp only [beq_iff_eq] at hp
      exact absurd hid hp
  · intro b hb hid
    rw [requestReturn_assignments] at hb
    obtain ⟨b0, hb0, rfl⟩ := mem_updateWhere.1 hb
    by_cases hp : (b0.id == a.id) = true
    · rw [if_pos hp]
      simp
    · rw [if_neg hp] at hid
      simp only [beq_iff_eq] at hp
      exact absurd hid hp

theorem C8_witness :
    ((adminDirectReturn dbPending aPending .lost (some 9) "gone" 1
        30).assignments.getD 0 aPending).return_location_id = none := by
  have h := (C8_lost_null_location dbPending aPending (some 9) "gone" 1 30).1
  exact h _ (by decide) (by decide)

/-- C7: on an assignment pending return, rejectReturn resets
`return_status` to `active` and clears the requested-at, location,
condition and notes fields, leaving the tool rows and the event log
unchanged; a subsequent requestReturn then stores exactly the freshly
submitted condition, notes and (lost-normalised) location, with no residue
of the earlier submission. -/
theorem C7_reject_then_request (s : DB) (a : Assignment)
    (_hpend : a.return_status = ReturnStatus.pending_return)
    (cond2 : Condition) (loc2 : Option Nat) (notes2 : String) (now2 : Nat) :
    (rejectReturn s a).tools = s.tools ∧
    (rejectReturn s a).events = s.events ∧
    (∀ b ∈ (rejectReturn s a).assignments, b.id = a.id →
        b.return_status = ReturnStatus.active ∧
        b.return_requested_at = none ∧ b.return_location_id = none ∧
        b.return_condition = none ∧ b.return_notes = none) ∧
    (∀ b ∈ (requestReturn (rejectReturn s a) a cond2 loc2 notes2
        now2).assignments, b.id = a.id →
        b.return_status = ReturnStatus.pending_return ∧
        b.return_requested_at = some now2 ∧
        b.return_condition = some cond2 ∧
        b.return_notes = strOpt notes2 ∧
        b.return_location_id
          = (if cond2 = Condition.lost then none else loc2)) := by
  refine ⟨rfl, rfl, ?_, ?_⟩
  · intro b hb hid
    rw [rejectReturn_assignments] at hb
    obtain ⟨b0, hb0, rfl⟩ := mem_updateWhere.1 hb
    by_cases hp : (b0.id == a.id) = true
    · rw [if_pos hp]
      exact ⟨rfl, rfl, rfl, rfl, rfl⟩
    · rw [if_neg hp] at hid
      simp only [beq_iff_eq] at hp
      exact absurd hid hp
  · intro b hb hid
    rw [requestReturn_assignments] at hb
    obtain ⟨b0, hb0, rfl⟩ := mem_updateWhere.1 hb
    by_cases hp : (b0.id == a.id) = true
    · rw [if_pos hp]
      exact ⟨rfl, rfl, rfl, rfl, rfl⟩
    · rw [if_neg hp] at hid
      simp only [beq_iff_eq] at hp
      exact absurd hid hp

theorem C7_witness :
    ((requestReturn (rejectReturn dbPending aPending) aPending .damaged
        (some 11) "cracked" 40).assignments.getD 0
        aPending).return_condition = some Condition.damaged := by
  have h := (C7_reject_then_request dbPending aPending (by decide) .damaged
    (some 11) "cracked" 40).2.2.2
  exact (h _ (by decide) (by decide)).2.2.1

/-- C6 as stated is false: AssignmentForm.handleSubmit performs no
availability check, so assigning a tool under maintenance runs to
completion, inserts the assignment and marks the tool `in_use`. -/
theorem C6_counterexample :
    tool1Maint.status ≠ ToolStatus.available ∧
    (createAssignmentW true true true dbMaint 10 1 (.person 2) "" 100
        none).2 = true ∧
    assignmentData 10 1 (.person 2) "" 100
      ∈ (createAssignment dbMaint 10 1 (.person 2) "" 100 none).assignments ∧
    ((createAssignment dbMaint 10 1 (.person 2) "" 100 none).tools.getD 0
        toolFallback).status = ToolStatus.in_use := by
  decide

/-- C6 amended: createAssignment never fails on an unavailable tool (only
the form's drop-down is filtered to available tools); it inserts an
assignment with `return_status = active` whose custody fields follow the
chosen target, sets the tool's status to `in_use`, and leaves the tool's
own location and person custody fields untouched (no relocation). -/
theorem C6_create_unchecked (s : DB) (newId tid : Nat) (tgt : Target)
    (notes : String) (now : Nat) (uid : Option Nat) :
    (createAssignmentW true true true s newId tid tgt notes now uid).2
      = true ∧
    (createAssignment s newId tid tgt notes now uid).assignments
      = s.assignments ++ [assignmentData newId tid tgt notes now] ∧
    (assignmentData newId tid tgt notes now).return_status
      = ReturnStatus.active ∧
    (assignmentData newId tid tgt notes now).returned_at = none ∧
    (assignmentData newId tid tgt notes now).person_id = tgt.personId ∧
    (assignmentData newId tid tgt notes now).location_id = tgt.locId ∧
    (assignmentData newId tid tgt notes now).assigned_to = tgt.userId ∧
    (∀ t ∈ (createAssignment s newId tid tgt notes now uid).tools,
        t.id = tid → t.status = ToolStatus.in_use) ∧
    (∀ t ∈ (createAssignment s newId tid tgt notes now uid).tools,
        ∃ t0 ∈ s.tools, t.id = t0.id ∧ t.location_id = t0.location_id ∧
          t.person_id = t0.person_id) := by
  refine ⟨rfl, rfl, rfl, rfl, rfl, rfl, rfl, ?_, ?_⟩
  · intro t ht hid
    rw [createAssignment_tools] at ht
    obtain ⟨t0, ht0, rfl⟩ := mem_updateWhere.1 ht
    by_cases hp : (t0.id == tid) = true
    · rw [if_pos hp]
    · rw [if_neg hp] at hid
      simp only [beq_iff_eq] at hp
      exact absurd hid hp
  · intro t ht
    rw [createAssignment_tools] at ht
    obtain ⟨t0, ht0, rfl⟩ := mem_updateWhere.1 ht
    refine ⟨t0, ht0, ?_, ?_, ?_⟩ <;> split <;> rfl

theorem C6_witness :
    ((createAssignment dbMaint 10 1 (.person 2) "" 100 none).tools.getD 0
        toolFallback).status = ToolStatus.in_use := by
  have h := (C6_create_unchecked dbMaint 10 1 (.person 2) "" 100 none).2.2.2.2.2.2.2.1
  exact h _ (by decide) (by decide)

/-- C5 as stated is false: approveReturn does not relocate the tool — with
condition good and recorded return location 9 the tool keeps its previous
location 7 after approval. -/
theorem C5_counterexample :
    aPending.return_status = ReturnStatus.pending_return ∧
    aPending.return_condition = some Condition.good ∧
    aPending.return_location_id = some 9 ∧
    ((approveReturn dbPending aPending 1 30).tools.getD 0
        toolFallback).status = ToolStatus.available ∧
    ((approveReturn dbPending aPending 1 30).tools.getD 0
        toolFallback).location_id = some 7 := by
  decide

/-- C5 amended: for every stored row carrying the passed assignment's id,
approveReturn marks it returned — stamping `returned_at`, the approver and
the approval timestamp while keeping the recorded condition, notes and
return location — and maps the tool status good→available,
maintenance→maintenance, damaged→damaged, lost→lost from the condition on
the passed assignment; but it does not relocate the tool: every tool row
keeps its location and person fields, and no event is appended. -/
theorem C5_approve_effects (s : DB) (a : Assignment) (uid now : Nat) :
    (∀ b ∈ s.assignments, b.id = a.id →
        ({ b with
          returned_at := some now,
          return_status := ReturnStatus.returned,
          return_approved_by := some uid,
          return_approved_at := some now } : Assignment)
          ∈ (approveReturn s a uid now).assignments) ∧
    (∀ t ∈ (approveReturn s a uid now).tools, t.id = a.tool_id →
        t.status = condToStatus a.return_condition) ∧
    (∀ t ∈ (approveReturn s a uid now).tools,
        ∃ t0 ∈ s.tools, t.id = t0.id ∧ t.location_id = t0.location_id ∧
          t.person_id = t0.person_id) ∧
    condToStatus (some .good) = ToolStatus.available ∧
    condToStatus (some .maintenance) = ToolStatus.maintenance ∧
    condToStatus (some .damaged) = ToolStatus.damaged ∧
    condToStatus (some .lost) = ToolStatus.lost ∧
    (approveReturn s a uid now).events = s.events := by
  refine ⟨?_, ?_, ?_, rfl, rfl, rfl, rfl, rfl⟩
  · intro b hb hid
    have hp : (b.id == a.id) = true := by simpa using hid
    have hm := mem_updateWhere_of_mem (p := fun b => b.id == a.id)
      (f := fun b => { b with
        returned_at := some now,
        return_status := .returned,
        return_approved_by := some uid,
        return_approved_at := some now }) hb
    rw [approveReturn_assignments]
    simpa [hp] using hm
  · intro t ht hid
    rw [approveReturn_tools] at ht
    obtain ⟨t0, ht0, rfl⟩ := mem_updateWhere.1 ht
    by_cases hp : (t0.id == a.tool_id) = true
    · rw [if_pos hp]
    · rw [if_neg hp] at hid
      simp only [beq_iff_eq] at hp
      exact absurd hid hp
  · intro t ht
    rw [approveReturn_tools] at ht
    obtain ⟨t0, ht0, rfl⟩ := mem_updateWhere.1 ht
    refine ⟨t0, ht0, ?_, ?_, ?_⟩ <;> split <;> rfl

theorem C5_witness :
    ((approveReturn dbPending aPending 1 30).tools.getD 0
        toolFallback).status = condToStatus aPending.return_condition := by
  have h := (C5_approve_effects dbPending aPending 1 30).2.1
  exact h _ (by decide) (by decide)

/-- C4 as stated is false: approveReturn, request fulfilment and warehouse
relocation mutate the assignment, the request/tool rows and the tool row
respectively, yet none of them appends an event. -/
theorem C4_counterexample :
    ((approveReturn dbPending aPending 1 30).assignments.getD 0
        aPending).return_status = ReturnStatus.returned ∧
    (approveReturn dbPending aPending 1 30).events.length
      = dbPending.events.length ∧
    ((updateRequestStatus dbReq 3 .fulfilled).tools.getD 0
        toolFallback).location_id = some 9 ∧
    ((updateRequestStatus dbReq 3 .fulfilled).requests.getD 0
        reqApproved).status = ReqStatus.fulfilled ∧
    (updateRequestStatus dbReq 3 .fulfilled).events.length
      = dbReq.events.length ∧
    ((assignToWarehouse dbReq 1 9).tools.getD 0 toolFallback).location_id
      = some 9 ∧
    (assignToWarehouse dbReq 1 9).events.length = dbReq.events.length := by
  decide

/-- C4 amended: only createAssignment and the administrator-direct return
append an event — exactly one each, whose `old_status` is the tool status
fetched before the call and whose `new_status` is the status the call
writes (`in_use`, respectively the condition-mapped status), with the
`assigned` event also carrying the target custody; approveReturn, the
relocation `assignToWarehouse` and request fulfilment append none. -/
theorem C4_event_emission (s : DB) (newId tid : Nat) (tgt : Target)
    (notes : String) (now : Nat) (uid : Option Nat) (a : Assignment)
    (cond : Condition) (loc : Option Nat) (notes2 : String)
    (uid2 now2 uid3 now3 wid rid : Nat) (st : ReqStatus) :
    ((createAssignment s newId tid tgt notes now uid).events
        = s.events ++ [assignedEvent s tid tgt notes uid] ∧
      (assignedEvent s tid tgt notes uid).event_type = .assigned ∧
      (assignedEvent s tid tgt notes uid).old_status
        = (s.tools.find? fun t => t.id == tid).map (·.status) ∧
      (assignedEvent s tid tgt notes uid).new_status = some .in_use ∧
      (assignedEvent s tid tgt notes uid).to_location_id = tgt.locId ∧
      (assignedEvent s tid tgt notes uid).to_person_id = tgt.personId ∧
      ∀ t ∈ (createAssignment s newId tid tgt notes now uid).tools,
        t.id = tid → t.status = ToolStatus.in_use) ∧
    ((adminDirectReturn s a cond loc notes2 uid2 now2).events
        = s.events ++ [returnedEvent s a cond loc notes2 uid2] ∧
      (returnedEvent s a cond loc notes2 uid2).event_type = .returned ∧
      (returnedEvent s a cond loc notes2 uid2).old_status
        = (s.tools.find? fun t => t.id == a.tool_id).map (·.status) ∧
      (returnedEvent s a cond loc notes2 uid2).new_status
        = some (condToStatus (some cond)) ∧
      ∀ t ∈ (adminDirectReturn s a cond loc notes2 uid2 now2).tools,
        t.id = a.tool_id → t.status = condToStatus (some cond)) ∧
    (approveReturn s a uid3 now3).events = s.events ∧
    (assignToWarehouse s tid wid).events = s.events ∧
    (updateRequestStatus s rid st).events = s.events := by
  refine ⟨⟨rfl, rfl, rfl, rfl, rfl, rfl, ?_⟩, ⟨rfl, rfl, rfl, rfl, ?_⟩,
    rfl, rfl, updateRequestStatus_events s rid st⟩
  · intro t ht hid
    rw [createAssignment_tools] at ht
    obtain ⟨t0, ht0, rfl⟩ := mem_updateWhere.1 ht
    by_cases hp : (t0.id == tid) = true
    · rw [if_pos hp]
    · rw [if_neg hp] at hid
      simp only [beq_iff_eq] at hp
      exact absurd hid hp
  · intro t ht hid
    rw [adminDirectReturn_tools] at ht
    obtain ⟨t0, ht0, rfl⟩ := mem_updateWhere.1 ht
    by_cases hp : (t0.id == a.tool_id) = true
    · rw [if_pos hp]
    · rw [if_neg hp] at hid
      simp only [beq_iff_eq] at hp
      exact absurd hid hp

theorem C4_witness :
    (createAssignment db0 10 1 (.person 2) "tagged" 100 (some 8)).events
      = db0.events ++ [assignedEvent db0 1 (.person 2) "tagged" (some 8)] := by
  exact (C4_event_emission db0 10 1 (.person 2) "tagged" 100 (some 8)
    aPending .good (some 9) "" 1 2 3 4 5 6 .approved).1.1

/-- C3 as stated is false: with the assignment update accepted and the tool
update refused, approveReturn reports failure yet leaves the assignment
marked returned while the tool status is untouched — a partially applied
state survives. -/
theorem C3_counterexample :
    (approveReturnW true false dbPending aPending 1 30).2 = false ∧
    (approveReturnW true false dbPending aPending 1 30).1 ≠ dbPending ∧
    (approveReturnW true false dbPending aPending 1 30).1.tools
      = dbPending.tools ∧
    ((approveReturnW true false dbPending aPending 1
        30).1.assignments.getD 0 aPending).return_status
      = ReturnStatus.returned ∧
    ((approveReturnW true false dbPending aPending 1 30).1.tools.getD 0
        toolFallback).status = ToolStatus.in_use := by
  decide

/-- C3 amended: the multi-write operations are sequential, not atomic.
When the first write is refused the state is unchanged, but when a later
write is refused the operation reports failure with the earlier writes
still applied — approveReturn with a refused tool update keeps the
assignment mutation, createAssignment with a refused tool update keeps the
inserted assignment — and a refused event insert is not reported at all:
createAssignment still reports success and merely loses the event. -/
theorem C3_not_atomic (okT okT2 okE2 : Bool) (s : DB) (a : Assignment)
    (uid now : Nat) (newId tid : Nat) (tgt : Target) (notes : String)
    (now2 : Nat) (uid2 : Option Nat) :
    approveReturnW false okT s a uid now = (s, false) ∧
    (approveReturnW true false s a uid now).2 = false ∧
    (approveReturnW true false s a uid now).1.tools = s.tools ∧
    (approveReturnW true false s a uid now).1.assignments
      = (approveReturn s a uid now).assignments ∧
    approveReturnW true true s a uid now
      = (approveReturn s a uid now, true) ∧
    createAssignmentW false okT2 okE2 s newId tid tgt notes now2 uid2
      = (s, false) ∧
    (createAssignmentW true false okE2 s newId tid tgt notes now2 uid2).2
      = false ∧
    (createAssignmentW true false okE2 s newId tid tgt notes now2
        uid2).1.assignments
      = s.assignments ++ [assignmentData newId tid tgt notes now2] ∧
    (createAssignmentW true false okE2 s newId tid tgt notes now2
        uid2).1.tools = s.tools ∧
    (createAssignmentW true true false s newId tid tgt notes now2 uid2).2
      = true ∧
    (createAssignmentW true true false s newId tid tgt notes now2
        uid2).1.events = s.events ∧
    (createAssignmentW true true false s newId tid tgt notes now2
        uid2).1.assignments
      = (createAssignment s newId tid tgt notes now2 uid2).assignments :=
  ⟨rfl, rfl, rfl, rfl, rfl, rfl, rfl, rfl, rfl, rfl, rfl, rfl⟩

/-- Splitting the per-assignment day division out of the summed
durations. -/
theorem totalUsageDays_eq_sum_div (now : ℤ) (l : List UsageRow) :
    totalUsageDays now l
      = ((l.map fun a =>
          ((a.returned_at.getD now - a.assigned_at : ℤ) : ℚ)).sum)
        / msPerDay := by
  unfold totalUsageDays daysInUse
  induction l with
  | nil => simp
  | cons a l ih =>
    simp only [List.map_cons, List.sum_cons, ih, add_div]

/-- C9: the usage percentage is the summed assignment durations (the
current time standing in for open returns) over the elapsed time since the
purchase date (or the creation date without one), as a rounded percentage;
the displayed bar width is that value clamped to the interval 0 to 100
whenever the percentage is non-negative; and a tool purchased 100 days ago
with 40 cumulative days in use shows 40. -/
theorem C9_usage_percentage (l : List UsageRow) (purchase : Option ℤ)
    (created now : ℤ) (hne : l ≠ [])
    (hlt : purchase.getD created < now) :
    usagePercentage l purchase created now
      = specUsagePercentage l purchase created now ∧
    (0 ≤ usagePercentage l purchase created now →
      displayUsageWidth (usagePercentage l purchase created now)
          = max 0 (min (usagePercentage l purchase created now) 100) ∧
        0 ≤ displayUsageWidth (usagePercentage l purchase created now) ∧
        displayUsageWidth (usagePercentage l purchase created now) ≤ 100) ∧
    usagePercentage [⟨0, some (40 * 86400000)⟩] (some 0) 0
        (100 * 86400000) = 40 := by
  have hD : (msPerDay : ℚ) ≠ 0 := by norm_num [msPerDay]
  have hE : (0 : ℚ) < ((now - purchase.getD created : ℤ) : ℚ) := by
    have h0 : (0 : ℤ) < now - purchase.getD created := sub_pos.2 hlt
    exact_mod_cast h0
  have hEne : ((now - purchase.getD created : ℤ) : ℚ) ≠ 0 := ne_of_gt hE
  have hempty : l.isEmpty = false := by
    cases l with
    | nil => exact absurd rfl hne
    | cons a l => rfl
  refine ⟨?_, ?_, ?_⟩
  · unfold usagePercentage specUsagePercentage
    simp only [hempty, Bool.false_eq_true, if_false]
    have hpos : (0 : ℚ)
        < ((now - purchase.getD created : ℤ) : ℚ) / msPerDay :=
      div_pos hE (by norm_num [msPerDay])
    rw [if_pos hpos]
    congr 1
    rw [totalUsageDays_eq_sum_div]
    field_simp
    ring
  · intro h
    have h1 : (0 : ℤ) ≤ min (usagePercentage l purchase created now) 100 :=
      le_min h (by norm_num)
    simp only [displayUsageWidth]
    exact ⟨(max_eq_right h1).symm, h1, min_le_right _ _⟩
  · norm_num [usagePercentage, totalUsageDays, daysInUse, msPerDay, jsRound]

theorem C9_witness :
    usagePercentage [⟨0, some (40 * 86400000)⟩] (some 0) 0
        (100 * 86400000) = 40 ∧
    specUsagePercentage [⟨0, some (40 * 86400000)⟩] (some 0) 0
        (100 * 86400000) = 40 := by
  have h := C9_usage_percentage [⟨0, some (40 * 86400000)⟩] (some 0) 0
    (100 * 86400000) (by simp) (by norm_num)
  refine ⟨h.2.2, ?_⟩
  rw [← h.1]
  exact h.2.2

/-- C1 as stated is false: from a well-formed state in which tool 1 is in
use under the open assignment created for person 2, the Dashboard
self-return flips the tool back to available without touching the
assignment, breaking the `in_use` ⇔ open-assignment equivalence. -/
theorem C1_counterexample :
    WF db1 ∧ ¬ statusOpenIff (applyOp (.selfReturn 1) db1) := by decide

/-- C1 amended: the equivalence `in_use` ⇔ open assignment (as part of
well-formedness) is preserved by createAssignment with a fresh id on a
tool with no open assignment, by requestReturn and rejectReturn always, by
approveReturn on a stored not-yet-returned assignment, and by the
Dashboard self-return only on a tool with no open assignment; the
counterexample shows the self-return breaks it on a tool that has one. -/
theorem C1_status_invariant (s : DB) (op : Op) (h : WF s)
    (hok : okOp s op) : statusOpenIff (applyOp op s) :=
  (WF_applyOp s op h hok).2.2.2.2

theorem C1_witness :
    statusOpenIff
      (applyOp (.request aPending .damaged (some 9) "crack" 25) dbPending) :=
  C1_status_invariant dbPending _ (by decide) (by decide)

/-- C2 as stated is false: after the Dashboard self-return of an assigned
tool the tool is available again with its assignment still open, and a
second createAssignment — offered by the form, which lists the tool as
available — yields two open assignments for the same tool. -/
theorem C2_counterexample :
    atMostOneOpen db2 ∧
    (db2.tools.getD 0 toolFallback).status = ToolStatus.available ∧
    ¬ atMostOneOpen (applyOp (.create 11 1 (.person 3) "" 200 none) db2) := by
  decide

/-- C2 amended: at most one open assignment per tool (as part of
well-formedness) is preserved by every operation under its operational
precondition — createAssignment in particular only when the tool has no
open assignment, a check the code does not perform; the counterexample
exhibits the reachable two-open-assignments state. -/
theorem C2_at_most_one_open (s : DB) (op : Op) (h : WF s)
    (hok : okOp s op) : atMostOneOpen (applyOp op s) :=
  (WF_applyOp s op h hok).2.2.2.1

theorem C2_witness :
    atMostOneOpen (applyOp (.create 10 1 (.person 2) "" 100 none) db0) :=
  C2_at_most_one_open db0 _ (by decide) (by decide)

end ToolTrak
